import Mathlib

/-!
Shallow embedding of `config/config.go` from the fabric-sdk-go repository
(`package config`): a configuration-access layer that reads a viper-backed
settings store and produces peer endpoint records, TLS trust pools, and a
derived JSON client-configuration file.

Modelling conventions:
* Go `interface{}` values handed back by the settings backend are the
  inductive `GoVal`; Go maps are association lists (first binding wins).
* Go panics are modelled as the `.error` side of `Except String` (for the
  peer-extraction path, whose only failures are panics) or as the
  `.panicked` constructor of `POutcome` (where panics and returned `error`
  values coexist in one function).
* External collaborators (viper getters, the filesystem, `pem.Decode`,
  `x509.ParseCertificate`, `json.Marshal`, the process environment) are
  explicit parameters: a `Settings` record for the viper-backed values the
  embedded functions read, and environment records of abstract functions
  for file and codec operations.
* Go `int` is modelled as unbounded `Int` (the configuration values in
  play are small; no arithmetic overflows occur in this code).
-/

/-- A Go `interface{}` value as produced by the settings backend: nil,
scalars, a `map[string]interface{}`, or a `map[interface{}]interface{}`. -/
inductive GoVal where
  | vnil : GoVal
  | vstr (s : String) : GoVal
  | vint (n : Int) : GoVal
  | vbool (b : Bool) : GoVal
  | vmapS (entries : List (String × GoVal)) : GoVal
  | vmapI (entries : List (GoVal × GoVal)) : GoVal

/-- Go interface equality as used by `map[interface{}]` key lookup,
restricted to the comparable values that can actually appear as map keys
(maps are not valid Go map keys). -/
def goValKeyEq : GoVal → GoVal → Bool
  | GoVal.vnil, GoVal.vnil => true
  | GoVal.vstr a, GoVal.vstr b => a == b
  | GoVal.vint a, GoVal.vint b => a == b
  | GoVal.vbool a, GoVal.vbool b => a == b
  | _, _ => false

/-- Indexing a Go `map[string]interface{}`: the zero value (nil interface)
when the key is absent. -/
def lookupS (m : List (String × GoVal)) (k : String) : GoVal :=
  match m.find? (fun e => e.1 == k) with
  | some e => e.2
  | none => GoVal.vnil

/-- Indexing a Go `map[interface{}]interface{}`: the zero value (nil
interface) when the key is absent. -/
def lookupI (m : List (GoVal × GoVal)) (k : GoVal) : GoVal :=
  match m.find? (fun e => goValKeyEq e.1 k) with
  | some e => e.2
  | none => GoVal.vnil

/-- Comma-ok type assertion `v.(string)`: the zero value `""` on mismatch
(including nil), never a panic. -/
def asStringOk : GoVal → String
  | GoVal.vstr s => s
  | _ => ""

/-- Comma-ok type assertion `v.(int)`: the zero value `0` on mismatch
(including nil), never a panic. -/
def asIntOk : GoVal → Int
  | GoVal.vint n => n
  | _ => 0

/-- Bare type assertion `v.(map[string]interface{})`: panics (here:
`.error`) when the value is not of that dynamic type, including when it is
the nil interface (absent map key). -/
def asMapS : GoVal → Except String (List (String × GoVal))
  | GoVal.vmapS m => Except.ok m
  | _ => Except.error "interface conversion: interface is not map[string]interface"

/-- Bare type assertion `v.(map[interface{}]interface{})`: panics (here:
`.error`) when the value is not of that dynamic type. -/
def asMapI : GoVal → Except String (List (GoVal × GoVal))
  | GoVal.vmapI m => Except.ok m
  | _ => Except.error "interface conversion: interface is not map[interface]interface"

/-- `true` exactly when the value's dynamic type is
`map[string]interface{}`. -/
def isMapS : GoVal → Bool
  | GoVal.vmapS _ => true
  | _ => false

/-- The raw fields pulled out of one `client.peers` entry before the
required-field checks (config.go lines 108-131). -/
structure RawPeerFields where
  host : String
  port : Int
  eventHost : String
  eventPort : Int
  tlsCertificate : String
  tlsServerHostOverride : String
  deriving DecidableEq

/-- `PeerConfig` (config.go lines 37-44). -/
structure PeerConfig where
  Host : String
  Port : String
  EventHost : String
  EventPort : String
  TLSCertificate : String
  TLSServerHostOverride : String
  deriving DecidableEq

/-- The per-field extraction step of the `GetPeersConfig` loop body
(config.go lines 107-131): comma-ok assertions for the four scalar fields
(lenient: zero value on mismatch), but a bare assertion on the entry's
`tls` value — `mm["tls"].(map[string]interface{})` — which panics when the
`tls` key is absent or its value is not a string-keyed map; in the
fallback shape, a bare assertion `value.(map[interface{}]interface{})`
which panics on any third shape.  The two independent `tls` assertions of
lines 119-120 (and 128-129) target the same value and are merged into one
`asMapS`; the scalar comma-ok extractions cannot fail, so evaluation
order against the source is immaterial. -/
def extractFields (value : GoVal) : Except String RawPeerFields :=
  match value with
  | GoVal.vmapS mm =>
      (asMapS (lookupS mm "tls")).bind (fun tm =>
        Except.ok { host := asStringOk (lookupS mm "host"),
                    port := asIntOk (lookupS mm "port"),
                    eventHost := asStringOk (lookupS mm "event_host"),
                    eventPort := asIntOk (lookupS mm "event_port"),
                    tlsCertificate := asStringOk (lookupS tm "certificate"),
                    tlsServerHostOverride := asStringOk (lookupS tm "serverhostoverride") })
  | v =>
      (asMapI v).bind (fun mm1 =>
        (asMapS (lookupI mm1 (GoVal.vstr "tls"))).bind (fun tm =>
          Except.ok { host := asStringOk (lookupI mm1 (GoVal.vstr "host")),
                      port := asIntOk (lookupI mm1 (GoVal.vstr "port")),
                      eventHost := asStringOk (lookupI mm1 (GoVal.vstr "event_host")),
                      eventPort := asIntOk (lookupI mm1 (GoVal.vstr "event_port")),
                      tlsCertificate := asStringOk (lookupS tm "certificate"),
                      tlsServerHostOverride := asStringOk (lookupS tm "serverhostoverride") }))

/-- Decimal digits of a natural number, least-significant digit pushed
onto `acc` first, with a structural fuel bound (`fuel ≥ 1` plus one unit
per division step is ample, and `n + 1` always is). -/
def digits10Aux : Nat → Nat → List Char → List Char
  | 0, _, acc => acc
  | f + 1, n, acc =>
    if n < 10 then Nat.digitChar n :: acc
    else digits10Aux f (n / 10) (Nat.digitChar (n % 10) :: acc)

/-- Decimal digits of a natural number, most significant first
(the digit list of `strconv.Itoa`). -/
def digits10 (n : Nat) : List Char :=
  digits10Aux (n + 1) n []

/-- `strconv.Itoa`: the decimal string form of an integer. -/
def itoa (n : Int) : String :=
  if n < 0 then String.mk ('-' :: digits10 (-n).toNat)
  else String.mk (digits10 n.toNat)

theorem digits10Aux_ne_nil (fuel n : Nat) (acc : List Char) (hacc : acc ≠ []) :
    digits10Aux fuel n acc ≠ [] := by
  induction fuel generalizing n acc with
  | zero => exact hacc
  | succ f ih =>
    rw [digits10Aux]
    split
    · simp
    · exact ih _ _ (by simp)

theorem digits10_ne_nil (n : Nat) : digits10 n ≠ [] := by
  unfold digits10
  rw [digits10Aux]
  split
  · simp
  · exact digits10Aux_ne_nil _ _ _ (by simp)

theorem itoa_ne_empty (n : Int) : itoa n ≠ "" := by
  unfold itoa
  split
  · intro h
    have h2 : ('-' :: digits10 (-n).toNat) = ([] : List Char) := by
      have := congrArg String.data h
      simpa using this
    simp at h2
  · intro h
    have h2 : digits10 n.toNat = ([] : List Char) := by
      have := congrArg String.data h
      simpa using this
    exact digits10_ne_nil _ h2

/-- Core of `strings.Replace` for a non-empty pattern `p0 :: pt`: scan left
to right; while the remaining replacement budget `n` is non-zero (Go's
`n < 0` means unlimited), replace each non-overlapping occurrence of the
pattern with `rep` and continue after it.  `fuel` bounds the recursion
depth structurally; each step consumes at least one character of the
scanned list, so any `fuel ≥ l.length` computes the scan to completion
(when the fuel runs out the remaining, necessarily empty, tail is
returned unchanged). -/
def goReplaceCore (p0 : Char) (pt rep : List Char) : Nat → Int → List Char → List Char
  | 0, _, l => l
  | _ + 1, _, [] => []
  | fuel + 1, n, c :: rest =>
    if n = 0 then c :: rest
    else if c = p0 ∧ pt.isPrefixOf rest then
      rep ++ goReplaceCore p0 pt rep fuel (n - 1) (rest.drop pt.length)
    else c :: goReplaceCore p0 pt rep fuel n rest

/-- Core of `strings.Replace` for the empty pattern: `rep` is inserted
before every character and once at the end, up to `n` insertions
(`n < 0`: unlimited). -/
def goReplaceEmptyPat (rep : List Char) : Int → List Char → List Char
  | n, [] => if n = 0 then [] else rep
  | n, c :: rest => if n = 0 then c :: rest else rep ++ c :: goReplaceEmptyPat rep (n - 1) rest

/-- `strings.Replace(s, old, new, n)`: replace the first `n` non-overlapping
occurrences of `old` in `s` by `new` (`n < 0`: every occurrence). -/
def stringsReplace (s old new : String) (n : Int) : String :=
  match old.data with
  | [] => String.mk (goReplaceEmptyPat new.data n s.data)
  | p0 :: pt => String.mk (goReplaceCore p0 pt new.data s.data.length n s.data)

/-- The required-field checks and final assembly of the `GetPeersConfig`
loop body (config.go lines 133-152): build the `PeerConfig`, panic (here:
`.error`) on an empty required field — naming the entry's label `key` —
panic when TLS is enabled but the certificate path is empty, then replace
every occurrence of `$GOPATH` in the certificate path by the `GOPATH`
environment value.  The source's sequence of independent `if`/`panic`
statements is an `if`-chain here because each panic aborts the call. -/
def checkAndFinish (key : String) (f : RawPeerFields) (tlsEnabled : Bool)
    (gopath : String) : Except String PeerConfig :=
  let p : PeerConfig :=
    { Host := f.host, Port := itoa f.port, EventHost := f.eventHost,
      EventPort := itoa f.eventPort, TLSCertificate := f.tlsCertificate,
      TLSServerHostOverride := f.tlsServerHostOverride }
  if p.Host = "" then Except.error ("host key not exist or empty for " ++ key)
  else if p.Port = "" then Except.error ("port key not exist or empty for " ++ key)
  else if p.EventHost = "" then Except.error ("event_host not exist or empty for " ++ key)
  else if p.EventPort = "" then Except.error ("event_port not exist or empty for " ++ key)
  else if tlsEnabled ∧ p.TLSCertificate = "" then
    Except.error ("tls.certificate not exist or empty for " ++ key)
  else Except.ok { p with TLSCertificate := stringsReplace p.TLSCertificate "$GOPATH" gopath (-1) }

/-- One iteration of the `GetPeersConfig` loop (config.go lines 106-152)
for the entry labelled `key`: field extraction followed by the
required-field checks and `$GOPATH` substitution. -/
def extractPeer (key : String) (value : GoVal) (tlsEnabled : Bool)
    (gopath : String) : Except String PeerConfig :=
  (extractFields value).bind (fun f => checkAndFinish key f tlsEnabled gopath)

/-- The viper-backed values the embedded functions read, together with the
one environment variable they consult.  `peers` is the map returned by
`GetStringMap("client.peers")`; Go's map iteration order is unspecified,
so the list order stands for one arbitrary iteration order.  `gopath` is
`os.Getenv("GOPATH")`, which is `""` when the variable is unset. -/
structure Settings where
  peers : List (String × GoVal)
  tlsEnabled : Bool
  ordererHost : String
  ordererPort : Int
  ordererTLSServerHostOverride : String
  ordererTLSCertificate : String
  gopath : String

/-- The `GetPeersConfig` loop over the entries of `client.peers`: each
entry is extracted and appended; a panic (`.error`) in any entry aborts
the whole call. -/
def getPeersLoop (tlsEnabled : Bool) (gopath : String) :
    List (String × GoVal) → Except String (List PeerConfig)
  | [] => Except.ok []
  | (key, value) :: rest =>
    (extractPeer key value tlsEnabled gopath).bind (fun p =>
      (getPeersLoop tlsEnabled gopath rest).bind (fun ps =>
        Except.ok (p :: ps)))

/-- `GetPeersConfig` (config.go lines 103-156). -/
def GetPeersConfig (s : Settings) : Except String (List PeerConfig) :=
  getPeersLoop s.tlsEnabled s.gopath s.peers

/-- `IsTLSEnabled` (config.go lines 159-161): `client.tls.enabled`. -/
def IsTLSEnabled (s : Settings) : Bool :=
  s.tlsEnabled

/-- `GetOrdererHost` (config.go lines 200-202). -/
def GetOrdererHost (s : Settings) : String :=
  s.ordererHost

/-- `GetOrdererPort` (config.go lines 205-207): the stringified
`client.orderer.port` integer. -/
def GetOrdererPort (s : Settings) : String :=
  itoa s.ordererPort

/-- `GetOrdererTLSServerHostOverride` (config.go lines 210-212). -/
def GetOrdererTLSServerHostOverride (s : Settings) : String :=
  s.ordererTLSServerHostOverride

/-- `GetOrdererTLSCertificate` (config.go lines 215-217):
`client.orderer.tls.certificate` with every `$GOPATH` occurrence replaced
by the `GOPATH` environment value. -/
def GetOrdererTLSCertificate (s : Settings) : String :=
  stringsReplace s.ordererTLSCertificate "$GOPATH" s.gopath (-1)

/-- Outcome of a Go call in which panics and normal returns coexist:
either the call panicked with a message, or it returned a value. -/
inductive POutcome (α : Type) where
  | panicked (msg : String) : POutcome α
  | ret (val : α) : POutcome α
  deriving DecidableEq

/-- `true` exactly when the outcome is a panic. -/
def POutcome.isPanicked : POutcome α → Bool
  | POutcome.panicked _ => true
  | POutcome.ret _ => false

/-- The logging-configuration tail of `InitConfig` (config.go lines
78-93): read `client.logging.level`; when non-empty, parse it with
`logging.LogLevel` and panic on a parse failure; otherwise keep the
default severity and return nil.  `levelErr` abstracts the external
parser's outcome on `levelStr` (`none`: recognized). -/
def initLogging (levelStr : String) (levelErr : Option String) : POutcome (Option String) :=
  if levelStr = "" then POutcome.ret none
  else
    match levelErr with
    | some e => POutcome.panicked e
    | none => POutcome.ret none

/-- `InitConfig` (config.go lines 63-94): with a non-empty `configFile`,
load it into the settings store; a parse failure (`readErr`, abstracting
`viper.ReadInConfig`) is returned to the caller as an error value prefixed
`Fatal error config file: ` — skipping the logging configuration — and
otherwise the logging tail runs. -/
def InitConfig (configFile : String) (readErr : Option String)
    (levelStr : String) (levelErr : Option String) : POutcome (Option String) :=
  if configFile = "" then initLogging levelStr levelErr
  else
    match readErr with
    | some e => POutcome.ret (some ("Fatal error config file: " ++ e))
    | none => initLogging levelStr levelErr

/-- An `x509.Certificate` as produced by `x509.ParseCertificate`,
abstracted to its DER bytes. -/
structure GoCert where
  der : List Nat
  deriving DecidableEq

/-- The external collaborators of the trust-pool path: `ioutil.ReadFile`,
`pem.Decode` (yielding the first PEM block's bytes, or `none` when no
block is found — Go's nil block), and `x509.ParseCertificate`. -/
structure TLSEnv where
  readFile : String → Except String (List Nat)
  pemDecode : List Nat → Option (List Nat)
  parseCert : List Nat → Except String GoCert

/-- `loadCAKey` (config.go lines 249-257): decode the first PEM block —
when `pem.Decode` returns a nil block, the subsequent `block.Bytes`
dereference panics — then parse it as a certificate, panicking on a parse
failure. -/
def loadCAKey (env : TLSEnv) (rawData : List Nat) : POutcome GoCert :=
  match env.pemDecode rawData with
  | none => POutcome.panicked "runtime error: invalid memory address or nil pointer dereference"
  | some blockBytes =>
    match env.parseCert blockBytes with
    | Except.error e => POutcome.panicked e
    | Except.ok c => POutcome.ret c

/-- `GetTLSCACertPool` (config.go lines 164-176): an empty path yields an
empty pool and no error; otherwise the file is read — a read failure is
returned to the caller as `(nil, err)` — and the parsed certificate is
added to a fresh pool.  The inner `Except` is Go's returned `error`; the
outer `POutcome` records panics escaping from `loadCAKey`. -/
def GetTLSCACertPool (env : TLSEnv) (tlsCertificate : String) :
    POutcome (Except String (List GoCert)) :=
  if tlsCertificate = "" then POutcome.ret (Except.ok [])
  else
    match env.readFile tlsCertificate with
    | Except.error e => POutcome.ret (Except.error e)
    | Except.ok rawData =>
      match loadCAKey env rawData with
      | POutcome.panicked m => POutcome.panicked m
      | POutcome.ret c => POutcome.ret (Except.ok [c])

/-- The nested `client` struct of `fabricCAConfig` (config.go
lines 49-52). -/
structure FabricCAClientKeys where
  keyfile : String
  certfile : String
  deriving DecidableEq

/-- `fabricCAConfig` (config.go lines 46-53), the Credential-Service
Client Descriptor serialized to `/tmp/client-config.json`. -/
structure fabricCAConfig where
  serverURL : String
  certfiles : List String
  client : FabricCAClientKeys
  deriving DecidableEq

/-- The external collaborators of `GetFabricCAClientPath`:
`viper.UnmarshalKey("client.fabricCA", ...)` on the current settings,
`json.Marshal` (a fixed function of the descriptor), and the write-error
outcome of `ioutil.WriteFile` for a given path and content. -/
structure CAEnv where
  unmarshalKey : Except String fabricCAConfig
  jsonMarshal : fabricCAConfig → Except String (List Nat)
  writeErr : String → List Nat → Option String

/-- The filesystem contents, path by path. -/
def FsState : Type := String → Option (List Nat)

/-- `GetFabricCAClientPath` (config.go lines 227-241): unmarshal
`client.fabricCA`, serialize it to JSON, and write it to the fixed path
`/tmp/client-config.json`, returning that path together with the write's
error outcome; unmarshalling and serialization failures return `("", err)`
without touching the filesystem.  A failed write is modelled as leaving
the file unchanged. -/
def GetFabricCAClientPath (env : CAEnv) (fs : FsState) :
    (String × Option String) × FsState :=
  match env.unmarshalKey with
  | Except.error e => (("", some e), fs)
  | Except.ok conf =>
    match env.jsonMarshal conf with
    | Except.error e => (("", some e), fs)
    | Except.ok jsonConfig =>
      match env.writeErr "/tmp/client-config.json" jsonConfig with
      | some e => (("/tmp/client-config.json", some e), fs)
      | none =>
        (("/tmp/client-config.json", none),
         fun p => if p = "/tmp/client-config.json" then some jsonConfig else fs p)

/-- `true` exactly when the (non-empty) pattern `pat` occurs as a
contiguous substring of `l`. -/
def tokenOccurs (pat : List Char) : List Char → Bool
  | [] => pat.isEmpty
  | c :: rest => pat.isPrefixOf (c :: rest) || tokenOccurs pat rest

/-- `true` exactly when the literal substring `$GOPATH` occurs in `s`. -/
def containsGOPATH (s : String) : Bool :=
  tokenOccurs "$GOPATH".data s.data

/-- `true` exactly when `s` contains no dollar character (so no part of a
`$GOPATH` placeholder). -/
def noDollar (s : String) : Bool :=
  !(s.data.contains '$')

theorem goReplaceCore_of_not_mem (p0 : Char) (pt rep : List Char) (fuel : Nat) (n : Int)
    (l : List Char) (h : p0 ∉ l) : goReplaceCore p0 pt rep fuel n l = l := by
  induction fuel generalizing l with
  | zero => rw [goReplaceCore]
  | succ f ih =>
    cases l with
    | nil => rw [goReplaceCore]
    | cons c rest =>
      have hc : c ≠ p0 := fun he => h (he ▸ List.mem_cons_self c rest)
      have hcond : ¬(c = p0 ∧ pt.isPrefixOf rest = true) := fun hcp => hc hcp.1
      by_cases hn : n = 0
      · rw [goReplaceCore, if_pos hn]
      · rw [goReplaceCore, if_neg hn, if_neg hcond,
          ih _ (fun hm => h (List.mem_cons_of_mem _ hm))]

theorem goReplaceCore_single (p0 : Char) (pt rep : List Char) (fuel : Nat) (n : Int)
    (u v : List Char) (hu : p0 ∉ u) (hv : p0 ∉ v) (hn : n ≠ 0)
    (hfuel : u.length + 1 ≤ fuel) :
    goReplaceCore p0 pt rep fuel n (u ++ (p0 :: pt) ++ v) = u ++ rep ++ v := by
  induction u generalizing fuel with
  | nil =>
    obtain ⟨f, rfl⟩ : ∃ f, fuel = f + 1 := by
      cases fuel with
      | zero => exact absurd hfuel (by simp)
      | succ f => exact ⟨f, rfl⟩
    have harg : ([] : List Char) ++ (p0 :: pt) ++ v = p0 :: (pt ++ v) := by simp
    have hpre : pt.isPrefixOf (pt ++ v) = true := List.isPrefixOf_iff_prefix.mpr ⟨v, rfl⟩
    rw [harg, goReplaceCore, if_neg hn, if_pos ⟨rfl, hpre⟩, List.drop_left pt v,
      goReplaceCore_of_not_mem p0 pt rep f (n - 1) v hv]
    simp
  | cons c u2 ih =>
    obtain ⟨f, rfl⟩ : ∃ f, fuel = f + 1 := by
      cases fuel with
      | zero => exact absurd hfuel (by simp)
      | succ f => exact ⟨f, rfl⟩
    have hc : c ≠ p0 := fun he => hu (he ▸ List.mem_cons_self c u2)
    have hrest := ih f (fun hm => hu (List.mem_cons_of_mem _ hm))
      (by simpa using Nat.succ_le_succ_iff.mp hfuel)
    have harg : (c :: u2) ++ (p0 :: pt) ++ v = c :: (u2 ++ (p0 :: pt) ++ v) := by simp
    have hcond : ¬(c = p0 ∧ pt.isPrefixOf (u2 ++ (p0 :: pt) ++ v) = true) :=
      fun hcp => hc hcp.1
    rw [harg, goReplaceCore, if_neg hn, if_neg hcond, hrest]
    simp

theorem tokenOccurs_false_of_not_mem (p0 : Char) (pat l : List Char)
    (hp : p0 ∈ pat) (h : p0 ∉ l) : tokenOccurs pat l = false := by
  induction l with
  | nil =>
    cases pat with
    | nil => cases hp
    | cons a b => rfl
  | cons c rest ih =>
    have hnp : pat.isPrefixOf (c :: rest) = false := by
      cases hx : pat.isPrefixOf (c :: rest) with
      | false => rfl
      | true =>
        have hsub : pat ⊆ c :: rest := (List.isPrefixOf_iff_prefix.mp hx).subset
        exact absurd (hsub hp) h
    rw [tokenOccurs, hnp]
    simp only [Bool.false_or]
    exact ih (fun hm => h (List.mem_cons_of_mem _ hm))

theorem noDollar_iff (s : String) : noDollar s = true ↔ '$' ∉ s.data := by
  unfold noDollar
  simp [List.elem_iff]

theorem stringsReplace_single (u v rep : String) (n : Int)
    (hu : noDollar u = true) (hv : noDollar v = true) (hn : n ≠ 0) :
    stringsReplace (u ++ "$GOPATH" ++ v) "$GOPATH" rep n = u ++ rep ++ v := by
  have hdata : (u ++ "$GOPATH" ++ v).data
      = u.data ++ ('$' :: "GOPATH".data) ++ v.data := by
    rw [String.data_append, String.data_append]
  show String.mk (goReplaceCore '$' "GOPATH".data rep.data
      (u ++ "$GOPATH" ++ v).data.length n (u ++ "$GOPATH" ++ v).data)
      = u ++ rep ++ v
  have hlen : u.data.length + 1 ≤ (u ++ "$GOPATH" ++ v).data.length := by
    rw [hdata]
    simp
  rw [hdata] at hlen ⊢
  rw [goReplaceCore_single '$' "GOPATH".data rep.data _ n u.data v.data
    ((noDollar_iff u).mp hu) ((noDollar_iff v).mp hv) hn hlen]
  apply String.ext
  rw [String.data_append, String.data_append]

theorem stringsReplace_of_noDollar (s rep : String) (n : Int)
    (hs : noDollar s = true) : stringsReplace s "$GOPATH" rep n = s := by
  show String.mk (goReplaceCore '$' "GOPATH".data rep.data s.data.length n s.data) = s
  rw [goReplaceCore_of_not_mem '$' "GOPATH".data rep.data s.data.length n s.data
    ((noDollar_iff s).mp hs)]

theorem containsGOPATH_false_of_noDollar (s : String) (hs : noDollar s = true) :
    containsGOPATH s = false := by
  unfold containsGOPATH
  exact tokenOccurs_false_of_not_mem '$' "$GOPATH".data s.data (by decide)
    ((noDollar_iff s).mp hs)

theorem noDollar_append (a b : String) (ha : noDollar a = true) (hb : noDollar b = true) :
    noDollar (a ++ b) = true := by
  rw [noDollar_iff, String.data_append]
  intro hm
  rcases List.mem_append.mp hm with h | h
  · exact (noDollar_iff a).mp ha h
  · exact (noDollar_iff b).mp hb h

theorem isMapS_true_iff (v : GoVal) : isMapS v = true ↔ ∃ m, v = GoVal.vmapS m := by
  cases v <;> simp [isMapS]

theorem extractFields_vmapS (mm tm : List (String × GoVal))
    (h : lookupS mm "tls" = GoVal.vmapS tm) :
    extractFields (GoVal.vmapS mm) = Except.ok
      { host := asStringOk (lookupS mm "host"), port := asIntOk (lookupS mm "port"),
        eventHost := asStringOk (lookupS mm "event_host"),
        eventPort := asIntOk (lookupS mm "event_port"),
        tlsCertificate := asStringOk (lookupS tm "certificate"),
        tlsServerHostOverride := asStringOk (lookupS tm "serverhostoverride") } := by
  simp [extractFields, h, asMapS, Except.bind]

theorem extractFields_vmapS_err (mm : List (String × GoVal))
    (h : isMapS (lookupS mm "tls") = false) :
    extractFields (GoVal.vmapS mm)
      = Except.error "interface conversion: interface is not map[string]interface" := by
  cases hl : lookupS mm "tls" <;>
    first
      | (simp [extractFields, hl, asMapS, Except.bind]; done)
      | (rw [hl] at h; simp [isMapS] at h)

theorem extractFields_vmapI (mi : List (GoVal × GoVal)) (tm : List (String × GoVal))
    (h : lookupI mi (GoVal.vstr "tls") = GoVal.vmapS tm) :
    extractFields (GoVal.vmapI mi) = Except.ok
      { host := asStringOk (lookupI mi (GoVal.vstr "host")),
        port := asIntOk (lookupI mi (GoVal.vstr "port")),
        eventHost := asStringOk (lookupI mi (GoVal.vstr "event_host")),
        eventPort := asIntOk (lookupI mi (GoVal.vstr "event_port")),
        tlsCertificate := asStringOk (lookupS tm "certificate"),
        tlsServerHostOverride := asStringOk (lookupS tm "serverhostoverride") } := by
  simp [extractFields, asMapI, h, asMapS, Except.bind]

theorem extractFields_vmapI_err (mi : List (GoVal × GoVal))
    (h : isMapS (lookupI mi (GoVal.vstr "tls")) = false) :
    extractFields (GoVal.vmapI mi)
      = Except.error "interface conversion: interface is not map[string]interface" := by
  cases hl : lookupI mi (GoVal.vstr "tls") <;>
    first
      | (simp [extractFields, asMapI, hl, asMapS, Except.bind]; done)
      | (rw [hl] at h; simp [isMapS] at h)

theorem checkAndFinish_ok (key : String) (f : RawPeerFields) (tlsEnabled : Bool)
    (gopath : String) (hhost : f.host ≠ "") (heh : f.eventHost ≠ "")
    (htls : ¬(tlsEnabled = true ∧ f.tlsCertificate = "")) :
    checkAndFinish key f tlsEnabled gopath = Except.ok
      { Host := f.host, Port := itoa f.port, EventHost := f.eventHost,
        EventPort := itoa f.eventPort,
        TLSCertificate := stringsReplace f.tlsCertificate "$GOPATH" gopath (-1),
        TLSServerHostOverride := f.tlsServerHostOverride } := by
  simp only [checkAndFinish]
  rw [if_neg hhost, if_neg (itoa_ne_empty f.port), if_neg heh,
    if_neg (itoa_ne_empty f.eventPort), if_neg htls]

theorem checkAndFinish_tls_err (key : String) (f : RawPeerFields) (gopath : String)
    (hhost : f.host ≠ "") (heh : f.eventHost ≠ "") (hcert : f.tlsCertificate = "") :
    checkAndFinish key f true gopath
      = Except.error ("tls.certificate not exist or empty for " ++ key) := by
  simp only [checkAndFinish]
  rw [if_neg hhost, if_neg (itoa_ne_empty f.port), if_neg heh,
    if_neg (itoa_ne_empty f.eventPort), if_pos ⟨by trivial, hcert⟩]

theorem checkAndFinish_ok_fields (key : String) (f : RawPeerFields) (tls : Bool)
    (gp : String) (p : PeerConfig) (h : checkAndFinish key f tls gp = Except.ok p) :
    p.Host = f.host ∧ p.Port = itoa f.port ∧ p.EventPort = itoa f.eventPort ∧
    p.TLSCertificate = stringsReplace f.tlsCertificate "$GOPATH" gp (-1) := by
  simp only [checkAndFinish] at h
  split at h
  · exact Except.noConfusion h
  · split at h
    · exact Except.noConfusion h
    · split at h
      · exact Except.noConfusion h
      · split at h
        · exact Except.noConfusion h
        · split at h
          · exact Except.noConfusion h
          · injection h with h2
            subst h2
            exact ⟨rfl, rfl, rfl, rfl⟩

theorem extractPeer_ok_fields (key : String) (v : GoVal) (tls : Bool) (gp : String)
    (p : PeerConfig) (h : extractPeer key v tls gp = Except.ok p) :
    ∃ f, extractFields v = Except.ok f ∧ p.Host = f.host ∧ p.Port = itoa f.port ∧
      p.EventPort = itoa f.eventPort ∧
      p.TLSCertificate = stringsReplace f.tlsCertificate "$GOPATH" gp (-1) := by
  unfold extractPeer at h
  cases hf : extractFields v with
  | error e =>
    rw [hf] at h
    exact Except.noConfusion (show Except.error e = Except.ok p from h)
  | ok f =>
    rw [hf] at h
    simp only [Except.bind] at h
    exact ⟨f, rfl, checkAndFinish_ok_fields key f tls gp p h⟩

theorem getPeersLoop_singleton_ok (tls : Bool) (gp key : String) (value : GoVal)
    (p : PeerConfig) (h : extractPeer key value tls gp = Except.ok p) :
    getPeersLoop tls gp [(key, value)] = Except.ok [p] := by
  simp [getPeersLoop, h, Except.bind]

theorem getPeersLoop_singleton_err (tls : Bool) (gp key : String) (value : GoVal)
    (e : String) (h : extractPeer key value tls gp = Except.error e) :
    getPeersLoop tls gp [(key, value)] = Except.error e := by
  simp [getPeersLoop, h, Except.bind]

theorem getPeersLoop_mem (tls : Bool) (gp : String) (entries : List (String × GoVal))
    (ps : List PeerConfig) (h : getPeersLoop tls gp entries = Except.ok ps)
    (p : PeerConfig) (hp : p ∈ ps) :
    ∃ key value, (key, value) ∈ entries ∧ extractPeer key value tls gp = Except.ok p := by
  induction entries generalizing ps with
  | nil =>
    simp only [getPeersLoop] at h
    injection h with h2
    subst h2
    cases hp
  | cons kv rest ih =>
    obtain ⟨key, value⟩ := kv
    simp only [getPeersLoop] at h
    cases hx : extractPeer key value tls gp with
    | error e =>
      rw [hx] at h
      exact Except.noConfusion (show Except.error e = Except.ok ps by simpa [Except.bind] using h)
    | ok q =>
      rw [hx] at h
      simp only [Except.bind] at h
      cases hr : getPeersLoop tls gp rest with
      | error e =>
        rw [hr] at h
        exact Except.noConfusion (show Except.error e = Except.ok ps by simpa [Except.bind] using h)
      | ok qs =>
        rw [hr] at h
        simp only [Except.bind] at h
        injection h with h2
        subst h2
        rcases List.mem_cons.mp hp with hpq | hpqs
        · subst hpq
          exact ⟨key, value, List.mem_cons_self _ _, hx⟩
        · obtain ⟨k2, v2, hm, he⟩ := ih qs hr hpqs
          exact ⟨k2, v2, List.mem_cons_of_mem _ hm, he⟩

/-- C1: the claim says a peer entry missing any of the four required
fields (host, port, event_host, event_port) makes `GetPeersConfig` panic
naming the entry's label.  The code cannot panic on a missing `port` or
`event_port`: the extracted integer defaults to `0`, `strconv.Itoa`
stringifies it to `"0"`, and the `p.Port == ""` / `p.EventPort == ""`
checks — whose panic messages announce exactly this validation — can never
fire.  At this entry (label `peer0`, `port` absent, everything else
present and well-formed) the call succeeds and returns `Port = "0"`. -/
theorem c1_missing_port_yields_zero_not_panic :
    GetPeersConfig
      { peers := [("peer0", GoVal.vmapS
          [("host", GoVal.vstr "peer0.example.com"),
           ("event_host", GoVal.vstr "peer0.example.com"),
           ("event_port", GoVal.vint 7053),
           ("tls", GoVal.vmapS [("certificate", GoVal.vstr "cert.pem")])])],
        tlsEnabled := false, ordererHost := "", ordererPort := 0,
        ordererTLSServerHostOverride := "", ordererTLSCertificate := "",
        gopath := "" }
      = Except.ok [{ Host := "peer0.example.com", Port := "0",
                     EventHost := "peer0.example.com", EventPort := "7053",
                     TLSCertificate := "cert.pem", TLSServerHostOverride := "" }] := rfl

/-- C2 counterexample: the claim says per-field extraction never panics,
including when the entry's `tls` key is absent.  At this entry (first map
shape, all four required fields present, no `tls` key) the bare type
assertion `mm["tls"].(map[string]interface{})` panics, and the panic
escapes `GetPeersConfig`. -/
theorem c2_tls_absent_panics :
    extractFields (GoVal.vmapS
        [("host", GoVal.vstr "peer0.example.com"), ("port", GoVal.vint 7051),
         ("event_host", GoVal.vstr "peer0.example.com"), ("event_port", GoVal.vint 7053)])
      = Except.error "interface conversion: interface is not map[string]interface"
    ∧ GetPeersConfig
        { peers := [("peer0", GoVal.vmapS
            [("host", GoVal.vstr "peer0.example.com"), ("port", GoVal.vint 7051),
             ("event_host", GoVal.vstr "peer0.example.com"),
             ("event_port", GoVal.vint 7053)])],
          tlsEnabled := false, ordererHost := "", ordererPort := 0,
          ordererTLSServerHostOverride := "", ordererTLSCertificate := "",
          gopath := "" }
        = Except.error "interface conversion: interface is not map[string]interface" :=
  ⟨rfl, rfl⟩

/-- C2 amended: in either supported map shape, the per-field extraction
step never panics exactly when the entry's `tls` key holds a string-keyed
map (the four scalar fields are extracted leniently, a missing or
wrong-typed one silently yielding the zero value); when the `tls` key is
absent or its value is not a `map[string]interface{}`, the extraction step
panics on the bare type assertion. -/
theorem c2_amended_extraction_panics_iff_tls_shape
    (mm : List (String × GoVal)) (mi : List (GoVal × GoVal)) :
    (isMapS (lookupS mm "tls") = true →
       ∃ f, extractFields (GoVal.vmapS mm) = Except.ok f) ∧
    (isMapS (lookupS mm "tls") = false →
       extractFields (GoVal.vmapS mm)
         = Except.error "interface conversion: interface is not map[string]interface") ∧
    (isMapS (lookupI mi (GoVal.vstr "tls")) = true →
       ∃ f, extractFields (GoVal.vmapI mi) = Except.ok f) ∧
    (isMapS (lookupI mi (GoVal.vstr "tls")) = false →
       extractFields (GoVal.vmapI mi)
         = Except.error "interface conversion: interface is not map[string]interface") := by
  refine ⟨?_, ?_, ?_, ?_⟩
  · intro h
    obtain ⟨tm, htm⟩ := (isMapS_true_iff _).mp h
    exact ⟨_, extractFields_vmapS mm tm htm⟩
  · intro h
    exact extractFields_vmapS_err mm h
  · intro h
    obtain ⟨tm, htm⟩ := (isMapS_true_iff _).mp h
    exact ⟨_, extractFields_vmapI mi tm htm⟩
  · intro h
    exact extractFields_vmapI_err mi h

/-- C2 witness: the amended characterization evaluated at a concrete entry
whose `tls` key holds a string-keyed map (extraction succeeds) and at a
concrete entry of the second shape whose `tls` key is absent (extraction
panics). -/
theorem c2_amended_witness :
    (∃ f, extractFields (GoVal.vmapS [("tls", GoVal.vmapS [])]) = Except.ok f) ∧
    extractFields (GoVal.vmapI [(GoVal.vstr "host", GoVal.vstr "h")])
      = Except.error "interface conversion: interface is not map[string]interface" :=
  ⟨(c2_amended_extraction_panics_iff_tls_shape [("tls", GoVal.vmapS [])]
      [(GoVal.vstr "host", GoVal.vstr "h")]).1 rfl,
   (c2_amended_extraction_panics_iff_tls_shape [("tls", GoVal.vmapS [])]
      [(GoVal.vstr "host", GoVal.vstr "h")]).2.2.2 rfl⟩

/-- C3 counterexample: the claim says an unparsable settings file at init
is fatal (the process aborts with no result returned to the caller).  At
this concrete input the code instead returns an ordinary error value —
prefixed `Fatal error config file:` — to the caller, and does not
panic. -/
theorem c3_parse_failure_is_returned_not_abort :
    InitConfig "config.yaml" (some "yaml: unmarshal errors") "DEBUG" none
      = POutcome.ret (some "Fatal error config file: yaml: unmarshal errors") ∧
    POutcome.isPanicked
      (InitConfig "config.yaml" (some "yaml: unmarshal errors") "DEBUG" none) = false :=
  ⟨rfl, rfl⟩

/-- C3 amended: with a non-empty file path and an unparsable settings
file, `InitConfig` reports the failure to its caller as an explicit error
value prefixed `Fatal error config file: `, skipping the logging
configuration (in particular it does not panic even when the logging
level would be unparsable), and returns no partial result beyond that
error. -/
theorem c3_amended_parse_failure_returned (configFile : String)
    (readErr levelErr : Option String) (levelStr e : String)
    (hc : configFile ≠ "") (hr : readErr = some e) :
    InitConfig configFile readErr levelStr levelErr
      = POutcome.ret (some ("Fatal error config file: " ++ e)) := by
  unfold InitConfig
  rw [if_neg hc, hr]

/-- C3 witness: the amended statement evaluated at a concrete unparsable
file, with an invalid logging level that would panic were the logging
tail reached. -/
theorem c3_amended_witness :
    InitConfig "config.yaml" (some "while parsing a block mapping") "bogus"
        (some "logger: invalid log level")
      = POutcome.ret (some "Fatal error config file: while parsing a block mapping") :=
  c3_amended_parse_failure_returned "config.yaml" (some "while parsing a block mapping")
    (some "logger: invalid log level") "bogus" "while parsing a block mapping"
    (by decide) rfl

/-- C4: for a peer entry (either map shape) whose extracted host and
event-host are non-empty — port and event-port stringify to non-empty
decimal strings unconditionally — and whose tls certificate field is
empty: with the global TLS flag enabled, extraction panics naming the
entry's label; with the flag disabled, extraction of the same entry
succeeds, and likewise for a `GetPeersConfig` call whose `client.peers`
map holds that entry. -/
theorem c4_tls_enabled_empty_cert_fatal_disabled_ok (key : String) (v : GoVal)
    (gopath : String) (f : RawPeerFields) (hf : extractFields v = Except.ok f)
    (hhost : f.host ≠ "") (heh : f.eventHost ≠ "") (hcert : f.tlsCertificate = "") :
    extractPeer key v true gopath
      = Except.error ("tls.certificate not exist or empty for " ++ key) ∧
    (∃ p, extractPeer key v false gopath = Except.ok p) ∧
    (∀ s : Settings, s.peers = [(key, v)] →
      (s.tlsEnabled = true →
        GetPeersConfig s = Except.error ("tls.certificate not exist or empty for " ++ key)) ∧
      (s.tlsEnabled = false → ∃ p, GetPeersConfig s = Except.ok [p])) := by
  have herr : ∀ gp, extractPeer key v true gp
      = Except.error ("tls.certificate not exist or empty for " ++ key) := by
    intro gp
    unfold extractPeer
    rw [hf]
    simp only [Except.bind]
    exact checkAndFinish_tls_err key f gp hhost heh hcert
  have hok : ∀ gp, extractPeer key v false gp = Except.ok
      { Host := f.host, Port := itoa f.port, EventHost := f.eventHost,
        EventPort := itoa f.eventPort,
        TLSCertificate := stringsReplace f.tlsCertificate "$GOPATH" gp (-1),
        TLSServerHostOverride := f.tlsServerHostOverride } := by
    intro gp
    unfold extractPeer
    rw [hf]
    simp only [Except.bind]
    exact checkAndFinish_ok key f false gp hhost heh (by simp)
  refine ⟨herr gopath, ⟨_, hok gopath⟩, ?_⟩
  intro s hs
  constructor
  · intro ht
    show getPeersLoop s.tlsEnabled s.gopath s.peers = _
    rw [hs, ht]
    exact getPeersLoop_singleton_err true s.gopath key v _ (herr s.gopath)
  · intro ht
    refine ⟨{ Host := f.host, Port := itoa f.port, EventHost := f.eventHost,
              EventPort := itoa f.eventPort,
              TLSCertificate := stringsReplace f.tlsCertificate "$GOPATH" s.gopath (-1),
              TLSServerHostOverride := f.tlsServerHostOverride }, ?_⟩
    show getPeersLoop s.tlsEnabled s.gopath s.peers = _
    rw [hs, ht]
    exact getPeersLoop_singleton_ok false s.gopath key v _ (hok s.gopath)

/-- C4 witness: the theorem evaluated at a concrete entry (label `peer0`,
all four required fields present, `tls` present with no certificate). -/
theorem c4_witness :
    extractPeer "peer0" (GoVal.vmapS
        [("host", GoVal.vstr "peer0.example.com"), ("port", GoVal.vint 7051),
         ("event_host", GoVal.vstr "peer0.example.com"),
         ("event_port", GoVal.vint 7053), ("tls", GoVal.vmapS [])]) true ""
      = Except.error "tls.certificate not exist or empty for peer0" ∧
    (∃ p, extractPeer "peer0" (GoVal.vmapS
        [("host", GoVal.vstr "peer0.example.com"), ("port", GoVal.vint 7051),
         ("event_host", GoVal.vstr "peer0.example.com"),
         ("event_port", GoVal.vint 7053), ("tls", GoVal.vmapS [])]) false ""
      = Except.ok p) := by
  have h := c4_tls_enabled_empty_cert_fatal_disabled_ok "peer0"
    (GoVal.vmapS
        [("host", GoVal.vstr "peer0.example.com"), ("port", GoVal.vint 7051),
         ("event_host", GoVal.vstr "peer0.example.com"),
         ("event_port", GoVal.vint 7053), ("tls", GoVal.vmapS [])]) ""
    { host := "peer0.example.com", port := 7051, eventHost := "peer0.example.com",
      eventPort := 7053, tlsCertificate := "", tlsServerHostOverride := "" }
    rfl (by decide) (by decide) rfl
  exact ⟨h.1, h.2.1⟩

/-- C5: in `GetTLSCACertPool` with a non-empty path, an unreadable
trust-anchor file is a recoverable failure returned to the caller as an
explicit error value (no panic), whereas content that cannot be decoded
as a PEM block (nil-block dereference) or parsed as a certificate is
fatal: the call panics and returns no error value. -/
theorem c5_read_recoverable_parse_fatal (env : TLSEnv) (path : String)
    (hp : path ≠ "") :
    (∀ e, env.readFile path = Except.error e →
       GetTLSCACertPool env path = POutcome.ret (Except.error e)) ∧
    (∀ raw, env.readFile path = Except.ok raw →
       (env.pemDecode raw = none →
          GetTLSCACertPool env path
            = POutcome.panicked "runtime error: invalid memory address or nil pointer dereference") ∧
       (∀ blockBytes pe, env.pemDecode raw = some blockBytes →
          env.parseCert blockBytes = Except.error pe →
          GetTLSCACertPool env path = POutcome.panicked pe)) := by
  constructor
  · intro e he
    simp [GetTLSCACertPool, hp, he]
  · intro raw hraw
    constructor
    · intro hdec
      simp [GetTLSCACertPool, loadCAKey, hp, hraw, hdec]
    · intro blockBytes pe hdec hparse
      simp [GetTLSCACertPool, loadCAKey, hp, hraw, hdec, hparse]

/-- C5 witness: the theorem evaluated at concrete environments for each
of the three outcomes (unreadable file, undecodable content, unparsable
certificate). -/
theorem c5_witness :
    GetTLSCACertPool
        { readFile := fun _ => Except.error "open ca.pem: no such file or directory",
          pemDecode := fun _ => none,
          parseCert := fun _ => Except.error "x509: malformed certificate" } "ca.pem"
      = POutcome.ret (Except.error "open ca.pem: no such file or directory") ∧
    GetTLSCACertPool
        { readFile := fun _ => Except.ok [0],
          pemDecode := fun _ => none,
          parseCert := fun _ => Except.error "x509: malformed certificate" } "ca.pem"
      = POutcome.panicked "runtime error: invalid memory address or nil pointer dereference" ∧
    GetTLSCACertPool
        { readFile := fun _ => Except.ok [0],
          pemDecode := fun _ => some [1],
          parseCert := fun _ => Except.error "x509: malformed certificate" } "ca.pem"
      = POutcome.panicked "x509: malformed certificate" :=
  ⟨(c5_read_recoverable_parse_fatal _ "ca.pem" (by decide)).1 _ rfl,
   ((c5_read_recoverable_parse_fatal _ "ca.pem" (by decide)).2 [0] rfl).1 rfl,
   ((c5_read_recoverable_parse_fatal _ "ca.pem" (by decide)).2 [0] rfl).2 [1] _ rfl rfl⟩

/-- C6: `GetTLSCACertPool` on the empty path returns a pool holding zero
certificates and no error; on a non-empty path to a readable file whose
first PEM block parses as a certificate it returns a pool holding exactly
that one certificate. -/
theorem c6_pool_sizes (env : TLSEnv) :
    GetTLSCACertPool env "" = POutcome.ret (Except.ok []) ∧
    (∀ path raw blockBytes c, path ≠ "" →
       env.readFile path = Except.ok raw →
       env.pemDecode raw = some blockBytes →
       env.parseCert blockBytes = Except.ok c →
       GetTLSCACertPool env path = POutcome.ret (Except.ok [c]) ∧ [c].length = 1) := by
  constructor
  · simp [GetTLSCACertPool]
  · intro path raw blockBytes c hp hraw hdec hparse
    refine ⟨?_, rfl⟩
    simp [GetTLSCACertPool, loadCAKey, hp, hraw, hdec, hparse]

/-- C6 witness: the theorem evaluated at a concrete environment holding
one readable single-certificate PEM file. -/
theorem c6_witness :
    GetTLSCACertPool
        { readFile := fun _ => Except.ok [10], pemDecode := fun _ => some [20],
          parseCert := fun _ => Except.ok { der := [30] } } ""
      = POutcome.ret (Except.ok []) ∧
    GetTLSCACertPool
        { readFile := fun _ => Except.ok [10], pemDecode := fun _ => some [20],
          parseCert := fun _ => Except.ok { der := [30] } } "ca.pem"
      = POutcome.ret (Except.ok [{ der := [30] }]) :=
  ⟨(c6_pool_sizes _).1,
   ((c6_pool_sizes _).2 "ca.pem" [10] [20] { der := [30] } (by decide) rfl rfl rfl).1⟩

/-- C7: when a `GetFabricCAClientPath` call succeeds, it returns the fixed
path `/tmp/client-config.json`; a second call with unchanged settings also
succeeds, returns the same fixed path, and leaves byte-identical JSON
content at that path. -/
theorem c7_idempotent_derived_file (env : CAEnv) (fs : FsState)
    (hsucc : (GetFabricCAClientPath env fs).1.2 = none) :
    (GetFabricCAClientPath env fs).1.1 = "/tmp/client-config.json" ∧
    (GetFabricCAClientPath env ((GetFabricCAClientPath env fs).2)).1
      = ("/tmp/client-config.json", none) ∧
    (GetFabricCAClientPath env ((GetFabricCAClientPath env fs).2)).2 "/tmp/client-config.json"
      = (GetFabricCAClientPath env fs).2 "/tmp/client-config.json" ∧
    (∃ bytes, env.jsonMarshal ((env.unmarshalKey).toOption.getD
        { serverURL := "", certfiles := [], client := { keyfile := "", certfile := "" } })
        = Except.ok bytes ∧
      (GetFabricCAClientPath env fs).2 "/tmp/client-config.json" = some bytes) := by
  cases hu : env.unmarshalKey with
  | error e => simp [GetFabricCAClientPath, hu] at hsucc
  | ok conf =>
    cases hm : env.jsonMarshal conf with
    | error e => simp [GetFabricCAClientPath, hu, hm] at hsucc
    | ok bytes =>
      cases hw : env.writeErr "/tmp/client-config.json" bytes with
      | some e => simp [GetFabricCAClientPath, hu, hm, hw] at hsucc
      | none =>
        refine ⟨?_, ?_, ?_, bytes, ?_, ?_⟩
        · simp [GetFabricCAClientPath, hu, hm, hw]
        · simp [GetFabricCAClientPath, hu, hm, hw]
        · simp [GetFabricCAClientPath, hu, hm, hw]
        · simpa [Except.toOption] using hm
        · simp [GetFabricCAClientPath, hu, hm, hw]

/-- C7 witness: the idempotence theorem evaluated at a concrete
environment whose unmarshal, serialization and write all succeed, starting
from an empty filesystem. -/
theorem c7_witness :
    (GetFabricCAClientPath
        { unmarshalKey := Except.ok
            { serverURL := "https://ca:7054", certfiles := ["a.pem"],
              client := { keyfile := "k.pem", certfile := "c.pem" } },
          jsonMarshal := fun _ => Except.ok [123, 10],
          writeErr := fun _ _ => none }
        (fun _ => none)).1.1 = "/tmp/client-config.json" ∧
    (GetFabricCAClientPath
        { unmarshalKey := Except.ok
            { serverURL := "https://ca:7054", certfiles := ["a.pem"],
              client := { keyfile := "k.pem", certfile := "c.pem" } },
          jsonMarshal := fun _ => Except.ok [123, 10],
          writeErr := fun _ _ => none }
        ((GetFabricCAClientPath
            { unmarshalKey := Except.ok
                { serverURL := "https://ca:7054", certfiles := ["a.pem"],
                  client := { keyfile := "k.pem", certfile := "c.pem" } },
              jsonMarshal := fun _ => Except.ok [123, 10],
              writeErr := fun _ _ => none }
            (fun _ => none)).2)).2 "/tmp/client-config.json"
      = (GetFabricCAClientPath
          { unmarshalKey := Except.ok
              { serverURL := "https://ca:7054", certfiles := ["a.pem"],
                client := { keyfile := "k.pem", certfile := "c.pem" } },
            jsonMarshal := fun _ => Except.ok [123, 10],
            writeErr := fun _ _ => none }
          (fun _ => none)).2 "/tmp/client-config.json" := by
  have h := c7_idempotent_derived_file
    { unmarshalKey := Except.ok
        { serverURL := "https://ca:7054", certfiles := ["a.pem"],
          client := { keyfile := "k.pem", certfile := "c.pem" } },
      jsonMarshal := fun _ => Except.ok [123, 10],
      writeErr := fun _ _ => none }
    (fun _ => none) rfl
  exact ⟨h.1, h.2.2.1⟩

/-- C9: the error paths of `GetFabricCAClientPath`: a failed unmarshal of
`client.fabricCA` and a failed JSON serialization each return the empty
path alongside the error; a failed write of the derived file returns the
non-empty fixed path `/tmp/client-config.json` together with the error,
not an empty path.  In every error case the filesystem is untouched. -/
theorem c9_write_failure_returns_path (env : CAEnv) (fs : FsState) :
    (∀ e, env.unmarshalKey = Except.error e →
       GetFabricCAClientPath env fs = (("", some e), fs)) ∧
    (∀ conf e, env.unmarshalKey = Except.ok conf →
       env.jsonMarshal conf = Except.error e →
       GetFabricCAClientPath env fs = (("", some e), fs)) ∧
    (∀ conf bytes e, env.unmarshalKey = Except.ok conf →
       env.jsonMarshal conf = Except.ok bytes →
       env.writeErr "/tmp/client-config.json" bytes = some e →
       GetFabricCAClientPath env fs = (("/tmp/client-config.json", some e), fs) ∧
       ("/tmp/client-config.json" == "") = false) := by
  refine ⟨?_, ?_, ?_⟩
  · intro e hu
    simp [GetFabricCAClientPath, hu]
  · intro conf e hu hm
    simp [GetFabricCAClientPath, hu, hm]
  · intro conf bytes e hu hm hw
    exact ⟨by simp [GetFabricCAClientPath, hu, hm, hw], rfl⟩

/-- C9 witness: the theorem evaluated at concrete environments for each of
the three error paths. -/
theorem c9_witness :
    GetFabricCAClientPath
        { unmarshalKey := Except.error "unmarshal failure",
          jsonMarshal := fun _ => Except.ok [1], writeErr := fun _ _ => none }
        (fun _ => none)
      = (("", some "unmarshal failure"), fun _ => none) ∧
    GetFabricCAClientPath
        { unmarshalKey := Except.ok
            { serverURL := "", certfiles := [], client := { keyfile := "", certfile := "" } },
          jsonMarshal := fun _ => Except.error "json failure",
          writeErr := fun _ _ => none }
        (fun _ => none)
      = (("", some "json failure"), fun _ => none) ∧
    GetFabricCAClientPath
        { unmarshalKey := Except.ok
            { serverURL := "", certfiles := [], client := { keyfile := "", certfile := "" } },
          jsonMarshal := fun _ => Except.ok [1],
          writeErr := fun _ _ => some "no space left on device" }
        (fun _ => none)
      = (("/tmp/client-config.json", some "no space left on device"), fun _ => none) :=
  ⟨(c9_write_failure_returns_path _ _).1 _ rfl,
   (c9_write_failure_returns_path _ _).2.1 _ _ rfl rfl,
   ((c9_write_failure_returns_path _ _).2.2 _ [1] _ rfl rfl rfl).1⟩

/-- C8 counterexample: the claim says the placeholder token is replaced
exactly once.  The code calls `strings.Replace` with count `-1`, which
replaces every occurrence: on the configured orderer certificate path
`$GOPATH/$GOPATH` with the environment variable set to `/opt/build`, the
code yields `/opt/build//opt/build` (both occurrences replaced), which
differs from the single-replacement result `/opt/build/$GOPATH`. -/
theorem c8_replaces_every_occurrence :
    GetOrdererTLSCertificate
      { peers := [], tlsEnabled := false, ordererHost := "", ordererPort := 0,
        ordererTLSServerHostOverride := "",
        ordererTLSCertificate := "$GOPATH/$GOPATH", gopath := "/opt/build" }
      = "/opt/build//opt/build" ∧
    stringsReplace "$GOPATH/$GOPATH" "$GOPATH" "/opt/build" 1 = "/opt/build/$GOPATH" ∧
    ("/opt/build//opt/build" == "/opt/build/$GOPATH") = false :=
  ⟨rfl, rfl, rfl⟩

/-- C8 amended: every non-overlapping occurrence of `$GOPATH` in a
returned TLS certificate path is replaced by the environment value; in
particular, for a configured path holding a single occurrence (no other
dollar character), the token is replaced exactly once: with the variable
set to `/opt/build` the resolved path carries `/opt/build` in its place,
and with the variable unset (empty value) the token is deleted.  This
holds for `GetOrdererTLSCertificate` and for the certificate path of any
record produced by the `GetPeersConfig` loop body. -/
theorem c8_amended_single_occurrence_substitution (s : Settings) (u v : String)
    (hu : noDollar u = true) (hv : noDollar v = true) :
    (s.ordererTLSCertificate = u ++ "$GOPATH" ++ v →
       (s.gopath = "/opt/build" → GetOrdererTLSCertificate s = u ++ "/opt/build" ++ v) ∧
       (s.gopath = "" → GetOrdererTLSCertificate s = u ++ v)) ∧
    (∀ (key : String) (val : GoVal) (f : RawPeerFields) (p : PeerConfig),
       extractFields val = Except.ok f →
       f.tlsCertificate = u ++ "$GOPATH" ++ v →
       extractPeer key val s.tlsEnabled s.gopath = Except.ok p →
       (s.gopath = "/opt/build" → p.TLSCertificate = u ++ "/opt/build" ++ v) ∧
       (s.gopath = "" → p.TLSCertificate = u ++ v)) := by
  have hrep : ∀ rep : String,
      stringsReplace (u ++ "$GOPATH" ++ v) "$GOPATH" rep (-1) = u ++ rep ++ v :=
    fun rep => stringsReplace_single u v rep (-1) hu hv (by decide)
  have hempty : u ++ "" ++ v = u ++ v := by simp
  constructor
  · intro hc
    constructor
    · intro hg
      unfold GetOrdererTLSCertificate
      rw [hc, hg, hrep]
    · intro hg
      unfold GetOrdererTLSCertificate
      rw [hc, hg, hrep, hempty]
  · intro key val f p hfe hcert hp
    obtain ⟨f2, hf2, _, _, _, hcertp⟩ :=
      extractPeer_ok_fields key val s.tlsEnabled s.gopath p hp
    rw [hfe] at hf2
    injection hf2 with hff
    subst hff
    constructor
    · intro hg
      rw [hcertp, hcert, hg, hrep]
    · intro hg
      rw [hcertp, hcert, hg, hrep, hempty]

/-- C8 witness: the amended statement evaluated at a configured orderer
certificate path `/certs/$GOPATH/ca.pem` with the variable set to
`/opt/build` and unset, and at a concrete peer entry carrying the same
certificate path. -/
theorem c8_witness :
    GetOrdererTLSCertificate
      { peers := [], tlsEnabled := false, ordererHost := "", ordererPort := 0,
        ordererTLSServerHostOverride := "",
        ordererTLSCertificate := "/certs/$GOPATH/ca.pem", gopath := "/opt/build" }
      = "/certs//opt/build/ca.pem" ∧
    GetOrdererTLSCertificate
      { peers := [], tlsEnabled := false, ordererHost := "", ordererPort := 0,
        ordererTLSServerHostOverride := "",
        ordererTLSCertificate := "/certs/$GOPATH/ca.pem", gopath := "" }
      = "/certs//ca.pem" ∧
    ({ Host := "h", Port := "7051", EventHost := "eh", EventPort := "7053",
       TLSCertificate := "/certs//opt/build/ca.pem",
       TLSServerHostOverride := "" } : PeerConfig).TLSCertificate
      = "/certs//opt/build/ca.pem" := by
  refine ⟨?_, ?_, ?_⟩
  · exact ((c8_amended_single_occurrence_substitution
      { peers := [], tlsEnabled := false, ordererHost := "", ordererPort := 0,
        ordererTLSServerHostOverride := "",
        ordererTLSCertificate := "/certs/$GOPATH/ca.pem", gopath := "/opt/build" }
      "/certs/" "/ca.pem" rfl rfl).1 rfl).1 rfl
  · exact ((c8_amended_single_occurrence_substitution
      { peers := [], tlsEnabled := false, ordererHost := "", ordererPort := 0,
        ordererTLSServerHostOverride := "",
        ordererTLSCertificate := "/certs/$GOPATH/ca.pem", gopath := "" }
      "/certs/" "/ca.pem" rfl rfl).1 rfl).2 rfl
  · exact ((c8_amended_single_occurrence_substitution
      { peers := [], tlsEnabled := false, ordererHost := "", ordererPort := 0,
        ordererTLSServerHostOverride := "",
        ordererTLSCertificate := "/certs/$GOPATH/ca.pem", gopath := "/opt/build" }
      "/certs/" "/ca.pem" rfl rfl).2 "peer0"
      (GoVal.vmapS
          [("host", GoVal.vstr "h"), ("port", GoVal.vint 7051),
           ("event_host", GoVal.vstr "eh"), ("event_port", GoVal.vint 7053),
           ("tls", GoVal.vmapS [("certificate", GoVal.vstr "/certs/$GOPATH/ca.pem")])])
      { host := "h", port := 7051, eventHost := "eh", eventPort := 7053,
        tlsCertificate := "/certs/$GOPATH/ca.pem", tlsServerHostOverride := "" }
      { Host := "h", Port := "7051", EventHost := "eh", EventPort := "7053",
        TLSCertificate := "/certs//opt/build/ca.pem", TLSServerHostOverride := "" }
      rfl rfl rfl).1 rfl

/-- C10 counterexample: the claim says a returned TLS certificate path
never contains the literal substring `$GOPATH`.  `strings.Replace` deletes
non-overlapping occurrences left to right, so on the configured path
`$GOP$GOPATHATH` with the variable unset the surviving characters
re-assemble into `$GOPATH`: the returned path is exactly the token. -/
theorem c10_residual_token_survives :
    GetOrdererTLSCertificate
      { peers := [], tlsEnabled := false, ordererHost := "", ordererPort := 0,
        ordererTLSServerHostOverride := "",
        ordererTLSCertificate := "$GOP$GOPATHATH", gopath := "" }
      = "$GOPATH" ∧
    containsGOPATH (GetOrdererTLSCertificate
      { peers := [], tlsEnabled := false, ordererHost := "", ordererPort := 0,
        ordererTLSServerHostOverride := "",
        ordererTLSCertificate := "$GOP$GOPATHATH", gopath := "" }) = true :=
  ⟨rfl, rfl⟩

/-- C10 amended: every record returned by `GetPeersConfig` has `Port` and
`EventPort` equal to the decimal string of an integer, hence non-empty,
with value `"0"` when the entry's `port` key is absent; `GetOrdererPort`
likewise is always a non-empty decimal string.  The TLS certificate paths
returned by the loop body and by `GetOrdererTLSCertificate` have every
non-overlapping occurrence of `$GOPATH` replaced, and are free of the
literal substring `$GOPATH` provided the configured path contains no
dollar character outside a single placeholder occurrence (or none at all)
and the environment value contains no dollar character; without that
proviso a residual occurrence can survive. -/
theorem c10_amended_port_and_token_invariants :
    (∀ (s : Settings) (ps : List PeerConfig) (p : PeerConfig),
       GetPeersConfig s = Except.ok ps → p ∈ ps →
       (∃ n, p.Port = itoa n) ∧ p.Port ≠ "" ∧
       (∃ n, p.EventPort = itoa n) ∧ p.EventPort ≠ "") ∧
    (∀ (mm : List (String × GoVal)) (f : RawPeerFields),
       extractFields (GoVal.vmapS mm) = Except.ok f →
       lookupS mm "port" = GoVal.vnil → itoa f.port = "0") ∧
    (∀ s : Settings, GetOrdererPort s = itoa s.ordererPort ∧ GetOrdererPort s ≠ "") ∧
    (∀ (s : Settings) (u v : String), noDollar u = true → noDollar v = true →
       noDollar s.gopath = true →
       (s.ordererTLSCertificate = u ++ "$GOPATH" ++ v →
          containsGOPATH (GetOrdererTLSCertificate s) = false) ∧
       (noDollar s.ordererTLSCertificate = true →
          containsGOPATH (GetOrdererTLSCertificate s) = false)) ∧
    (∀ (key : String) (val : GoVal) (f : RawPeerFields) (p : PeerConfig)
       (tls : Bool) (gp u v : String), noDollar gp = true →
       extractFields val = Except.ok f →
       extractPeer key val tls gp = Except.ok p →
       (f.tlsCertificate = u ++ "$GOPATH" ++ v → noDollar u = true →
          noDollar v = true → containsGOPATH p.TLSCertificate = false) ∧
       (noDollar f.tlsCertificate = true →
          containsGOPATH p.TLSCertificate = false)) := by
  refine ⟨?_, ?_, ?_, ?_, ?_⟩
  · intro s ps p h hp
    obtain ⟨key, value, _, hx⟩ := getPeersLoop_mem s.tlsEnabled s.gopath s.peers ps h p hp
    obtain ⟨f, _, _, hport, heport, _⟩ :=
      extractPeer_ok_fields key value s.tlsEnabled s.gopath p hx
    refine ⟨⟨f.port, hport⟩, ?_, ⟨f.eventPort, heport⟩, ?_⟩
    · rw [hport]
      exact itoa_ne_empty f.port
    · rw [heport]
      exact itoa_ne_empty f.eventPort
  · intro mm f hfe hport
    cases hl : lookupS mm "tls" with
    | vmapS tm =>
      rw [extractFields_vmapS mm tm hl] at hfe
      injection hfe with hff
      subst hff
      rw [hport]
      rfl
    | vnil => rw [extractFields_vmapS_err mm (by rw [hl]; rfl)] at hfe; exact Except.noConfusion hfe
    | vstr a => rw [extractFields_vmapS_err mm (by rw [hl]; rfl)] at hfe; exact Except.noConfusion hfe
    | vint a => rw [extractFields_vmapS_err mm (by rw [hl]; rfl)] at hfe; exact Except.noConfusion hfe
    | vbool a => rw [extractFields_vmapS_err mm (by rw [hl]; rfl)] at hfe; exact Except.noConfusion hfe
    | vmapI a => rw [extractFields_vmapS_err mm (by rw [hl]; rfl)] at hfe; exact Except.noConfusion hfe
  · intro s
    exact ⟨rfl, itoa_ne_empty s.ordererPort⟩
  · intro s u v hu hv hg
    constructor
    · intro hc
      unfold GetOrdererTLSCertificate
      rw [hc, stringsReplace_single u v s.gopath (-1) hu hv (by decide)]
      exact containsGOPATH_false_of_noDollar _
        (noDollar_append _ v (noDollar_append u s.gopath hu hg) hv)
    · intro hc
      unfold GetOrdererTLSCertificate
      rw [stringsReplace_of_noDollar s.ordererTLSCertificate s.gopath (-1) hc]
      exact containsGOPATH_false_of_noDollar _ hc
  · intro key val f p tls gp u v hg hfe hp
    obtain ⟨f2, hf2, _, _, _, hcertp⟩ := extractPeer_ok_fields key val tls gp p hp
    rw [hfe] at hf2
    injection hf2 with hff
    subst hff
    constructor
    · intro hc hu hv
      rw [hcertp, hc, stringsReplace_single u v gp (-1) hu hv (by decide)]
      exact containsGOPATH_false_of_noDollar _
        (noDollar_append _ v (noDollar_append u gp hu hg) hv)
    · intro hc
      rw [hcertp, stringsReplace_of_noDollar f.tlsCertificate gp (-1) hc]
      exact containsGOPATH_false_of_noDollar _ hc

/-- C10 witness: the amended invariants evaluated at a concrete
single-entry settings store and at a concrete orderer configuration whose
certificate path holds one placeholder occurrence. -/
theorem c10_witness :
    ((∃ n, ({ Host := "h", Port := "7051", EventHost := "eh", EventPort := "7053",
              TLSCertificate := "c", TLSServerHostOverride := "" } : PeerConfig).Port
        = itoa n) ∧
     ({ Host := "h", Port := "7051", EventHost := "eh", EventPort := "7053",
        TLSCertificate := "c", TLSServerHostOverride := "" } : PeerConfig).Port ≠ "" ∧
     (∃ n, ({ Host := "h", Port := "7051", EventHost := "eh", EventPort := "7053",
              TLSCertificate := "c", TLSServerHostOverride := "" } : PeerConfig).EventPort
        = itoa n) ∧
     ({ Host := "h", Port := "7051", EventHost := "eh", EventPort := "7053",
        TLSCertificate := "c", TLSServerHostOverride := "" } : PeerConfig).EventPort ≠ "") ∧
    GetOrdererPort
      { peers := [], tlsEnabled := false, ordererHost := "", ordererPort := 7050,
        ordererTLSServerHostOverride := "", ordererTLSCertificate := "", gopath := "" }
      ≠ "" ∧
    containsGOPATH (GetOrdererTLSCertificate
      { peers := [], tlsEnabled := false, ordererHost := "", ordererPort := 7050,
        ordererTLSServerHostOverride := "",
        ordererTLSCertificate := "/certs/$GOPATH/ca.pem", gopath := "/opt/build" })
      = false := by
  refine ⟨?_, ?_, ?_⟩
  · exact c10_amended_port_and_token_invariants.1
      { peers := [("peer0", GoVal.vmapS
          [("host", GoVal.vstr "h"), ("port", GoVal.vint 7051),
           ("event_host", GoVal.vstr "eh"), ("event_port", GoVal.vint 7053),
           ("tls", GoVal.vmapS [("certificate", GoVal.vstr "c")])])],
        tlsEnabled := false, ordererHost := "", ordererPort := 0,
        ordererTLSServerHostOverride := "", ordererTLSCertificate := "", gopath := "" }
      [{ Host := "h", Port := "7051", EventHost := "eh", EventPort := "7053",
         TLSCertificate := "c", TLSServerHostOverride := "" }]
      { Host := "h", Port := "7051", EventHost := "eh", EventPort := "7053",
        TLSCertificate := "c", TLSServerHostOverride := "" }
      rfl (List.mem_cons_self _ _)
  · exact (c10_amended_port_and_token_invariants.2.2.1
      { peers := [], tlsEnabled := false, ordererHost := "", ordererPort := 7050,
        ordererTLSServerHostOverride := "", ordererTLSCertificate := "", gopath := "" }).2
  · exact (c10_amended_port_and_token_invariants.2.2.2.1
      { peers := [], tlsEnabled := false, ordererHost := "", ordererPort := 7050,
        ordererTLSServerHostOverride := "",
        ordererTLSCertificate := "/certs/$GOPATH/ca.pem", gopath := "/opt/build" }
      "/certs/" "/ca.pem" rfl rfl rfl).1 rfl
